import Mathlib

/-!
Verification of the middleware layer of shrina-proxy (src/middleware.ts):
structured request/response logging, a Hono→Express CORS adapter, and a
centralized error handler.  Each definition below is a shallow embedding of
the corresponding TypeScript source; theorems settle the specification
claims against these embeddings.
-/

namespace Middleware

/-- A header value as found on Node's `IncomingMessage.headers`:
either a plain string or an array of strings (`string | string[]`);
`Option HVal` additionally models `undefined`. -/
inductive HVal where
  | str (s : String)
  | arr (l : List String)
deriving DecidableEq, Repr

/-- Embedding of JS `String.prototype.toLowerCase()` for the ASCII header
names this code handles: lower-case each character. -/
def jsToLowerCase (s : String) : String :=
  String.mk (s.data.map Char.toLower)

/-- The sensitive header name list from `getFilteredHeaders`
(`const sensitiveHeaders = ['authorization', 'cookie', 'set-cookie']`). -/
def sensitiveHeaders : List String :=
  ["authorization", "cookie", "set-cookie"]

/-- One loop iteration of `getFilteredHeaders` (middleware.ts lines 95-103):
`if (sensitiveHeaders.includes(key.toLowerCase())) headers[key] = '[REDACTED]';
else headers[key] = Array.isArray(value) ? value.join(', ') : value || '';`.
For a plain string `s`, the JS expression `s || ''` equals `s` (when `s` is
`''` it yields `''`, which is the same string), so the string branch keeps
the value. -/
def filterEntry (key : String) (value : Option HVal) : String :=
  if sensitiveHeaders.contains (jsToLowerCase key) then "[REDACTED]"
  else
    match value with
    | some (.arr l) => String.intercalate (", ") l
    | some (.str s) => s
    | none => ""

/-- Shallow embedding of `getFilteredHeaders` (middleware.ts lines 91-106):
builds the output record entry-wise from `Object.entries(req.headers)`.
The entry order of the source object is preserved, so the record is
modelled as the association list of its entries. -/
def getFilteredHeaders (h : List (String × Option HVal)) : List (String × String) :=
  h.map (fun e => (e.1, filterEntry e.1 e.2))

/-- Re-injection of a filtered header record into the input type of
`getFilteredHeaders`: every value of the output is a plain string. -/
def asHeaderInput (h : List (String × String)) : List (String × Option HVal) :=
  h.map (fun e => (e.1, some (.str e.2)))

/-- A name equals one of the sensitive names case-insensitively. -/
def isSensitiveName (k : String) : Prop :=
  jsToLowerCase k = "authorization" ∨ jsToLowerCase k = "cookie" ∨
    jsToLowerCase k = "set-cookie"

instance (k : String) : Decidable (isSensitiveName k) := by
  unfold isSensitiveName; infer_instance

lemma contains_iff_isSensitiveName (k : String) :
    sensitiveHeaders.contains (jsToLowerCase k) = true ↔ isSensitiveName k := by
  have h : sensitiveHeaders.contains (jsToLowerCase k) =
      sensitiveHeaders.elem (jsToLowerCase k) := rfl
  rw [h, List.elem_iff]
  simp [sensitiveHeaders, isSensitiveName]

/-- The value paired with `k` by `filterEntry` when `k` is not sensitive,
spelled the way the claim describes it: arrays joined into one
comma-delimited string, absent values become the empty string, plain
string values preserved unchanged. -/
def displayValue : Option HVal → String
  | some (.arr l) => String.intercalate (", ") l
  | some (.str s) => s
  | none => ""

lemma filterEntry_sensitive (k : String) (v : Option HVal)
    (hs : isSensitiveName k) : filterEntry k v = "[REDACTED]" := by
  unfold filterEntry
  rw [if_pos ((contains_iff_isSensitiveName k).mpr hs)]

lemma filterEntry_not_sensitive (k : String) (v : Option HVal)
    (hs : ¬ isSensitiveName k) : filterEntry k v = displayValue v := by
  unfold filterEntry
  rw [if_neg (fun hc => hs ((contains_iff_isSensitiveName k).mp hc))]
  cases v with
  | none => rfl
  | some w => cases w <;> rfl

/-- C2 -- `getFilteredHeaders` returns a copy of the header map in which
every header whose name case-insensitively equals `authorization`, `cookie`
or `set-cookie` has value `[REDACTED]`; every multi-valued header is joined
into a single comma-delimited string; every absent value becomes the empty
string; and every other (plain string) header value is preserved unchanged.
The function is total (pure, never fails) and keeps every key. -/
theorem getFilteredHeaders_spec (h : List (String × Option HVal))
    (k : String) (v : Option HVal) (hmem : (k, v) ∈ h) :
    (isSensitiveName k → (k, "[REDACTED]") ∈ getFilteredHeaders h) ∧
    (¬ isSensitiveName k →
      (∀ l, v = some (.arr l) →
        (k, String.intercalate (", ") l) ∈ getFilteredHeaders h) ∧
      (∀ s, v = some (.str s) → (k, s) ∈ getFilteredHeaders h) ∧
      (v = none → (k, "") ∈ getFilteredHeaders h)) := by
  constructor
  · intro hs
    have : (k, filterEntry k v) ∈ getFilteredHeaders h :=
      List.mem_map_of_mem (fun e => (e.1, filterEntry e.1 e.2)) hmem
    rwa [filterEntry_sensitive k v hs] at this
  · intro hs
    have hbase : (k, filterEntry k v) ∈ getFilteredHeaders h :=
      List.mem_map_of_mem (fun e => (e.1, filterEntry e.1 e.2)) hmem
    rw [filterEntry_not_sensitive k v hs] at hbase
    refine ⟨?_, ?_, ?_⟩
    · intro l hv; rw [hv] at hbase; exact hbase
    · intro s hv; rw [hv] at hbase; exact hbase
    · intro hv; rw [hv] at hbase; exact hbase

/-- Witness for `getFilteredHeaders_spec` at a concrete header map: an
`Authorization: Bearer X` header is redacted and an `accept` header is
preserved. -/
theorem getFilteredHeaders_spec_witness :
    ((("Authorization"), ("[REDACTED]")) ∈
      getFilteredHeaders
        [(("Authorization"), some (.str ("Bearer X"))),
         (("accept"), some (.str ("text/html")))]) ∧
    ((("accept"), ("text/html")) ∈
      getFilteredHeaders
        [(("Authorization"), some (.str ("Bearer X"))),
         (("accept"), some (.str ("text/html")))]) := by
  constructor
  · exact (getFilteredHeaders_spec
      [(("Authorization"), some (.str ("Bearer X"))),
       (("accept"), some (.str ("text/html")))]
      ("Authorization") (some (.str ("Bearer X"))) (by decide)).1 (by decide)
  · exact ((getFilteredHeaders_spec
      [(("Authorization"), some (.str ("Bearer X"))),
       (("accept"), some (.str ("text/html")))]
      ("accept") (some (.str ("text/html"))) (by decide)).2
        (by decide)).2.1 ("text/html") rfl

/-- C8 -- redaction is idempotent: feeding the (string-valued) output of
`getFilteredHeaders` back through the filter returns it unchanged. -/
theorem getFilteredHeaders_idempotent (h : List (String × Option HVal)) :
    getFilteredHeaders (asHeaderInput (getFilteredHeaders h)) =
      getFilteredHeaders h := by
  induction h with
  | nil => rfl
  | cons e t ih =>
    obtain ⟨k, v⟩ := e
    simp only [getFilteredHeaders, asHeaderInput, List.map_cons] at ih ⊢
    rw [ih]
    have hhead : filterEntry k (some (.str (filterEntry k v))) = filterEntry k v := by
      by_cases hs : isSensitiveName k
      · rw [filterEntry_sensitive k v hs,
          filterEntry_sensitive k (some (.str ("[REDACTED]"))) hs]
      · rw [filterEntry_not_sensitive k v hs,
          filterEntry_not_sensitive k (some (.str (displayValue v))) hs]
        rfl
    rw [hhead]

/-! ### Express response objects and the request logger -/

/-- The slice of an Express `Response` the middleware touches: the status
code, the response headers, whether `end` has finished the response, how
many times the captured original `end` ran, and the body written by `end`. -/
structure ExpressRes where
  statusCode : Nat
  headers : List (String × String)
  ended : Bool
  endCount : Nat
  body : Option String
deriving DecidableEq, Repr

/-- Node's `res.setHeader(name, value)`: replaces any existing header of
that (case-insensitive) name with the new value. -/
def ExpressRes.setHeader (r : ExpressRes) (n v : String) : ExpressRes :=
  { r with headers :=
      r.headers.filter (fun p => !(jsToLowerCase p.1 == jsToLowerCase n)) ++ [(n, v)] }

/-- Reading a response header: the value most recently set for the
(case-insensitive) name. -/
def ExpressRes.getHeader (r : ExpressRes) (n : String) : Option String :=
  ((r.headers.filter (fun p => jsToLowerCase p.1 == jsToLowerCase n)).getLast?).map
    (fun p => p.2)

/-- A pristine in-flight response (Express defaults the status to 200). -/
def freshRes : ExpressRes :=
  { statusCode := 200, headers := [], ended := false, endCount := 0, body := none }

/-- Character for one base-36 digit, `0`-`9` then `a`-`z`, as produced by
JS `Number.prototype.toString(36)`. -/
def base36DigitChar (d : Nat) : Char :=
  if d < 10 then Char.ofNat (48 + d) else Char.ofNat (87 + d)

/-- Fractional base-36 digits of the double `num / 2^53`: the digits a JS
engine prints after `0.` for such a value, ending when the remainder is
exhausted.  The fuel 64 exceeds the 53 steps after which the expansion of
`num / 2^53` in base 36 terminates. -/
def base36FracDigits : Nat → Nat → List Char
  | 0, _ => []
  | _ + 1, 0 => []
  | fuel + 1, num =>
      base36DigitChar (num * 36 / 2 ^ 53) ::
        base36FracDigits fuel (num * 36 % 2 ^ 53)

/-- Embedding of `Math.random().toString(36)`: `Math.random()` draws a
double `k / 2^53` in `[0, 1)`; `(0).toString(36)` is the string `0`, and a
nonzero fraction prints as `0.` followed by its base-36 digits. -/
def jsRandomToString36 (k : Nat) : String :=
  if k = 0 then "0"
  else String.mk ('0' :: '.' :: base36FracDigits 64 k)

/-- Embedding of JS `String.prototype.substring(2)`: drop the first two
code units (all strings here are ASCII). -/
def jsSubstring2 (s : String) : String :=
  String.mk (s.data.drop 2)

/-- `Math.random().toString(36).substring(2)` (middleware.ts line 36), as a
function of the numerator `k` of the random draw `k / 2^53`. -/
def generatedRequestId (k : Nat) : String :=
  jsSubstring2 (jsRandomToString36 k)

/-- Request id resolution (middleware.ts lines 34-36):
`req.headers['x-request-id'] || Math.random().toString(36).substring(2)`.
`inbound` is the inbound header value — Node joins duplicate occurrences of
a custom header, so the value is a single string when the header is
present — and the JS `||` treats the empty string as falsy. -/
def resolveRequestId (inbound : Option String) (k : Nat) : String :=
  match inbound with
  | some s => if s = "" then generatedRequestId k else s
  | none => generatedRequestId k

/-- The correlation-id portion of `requestLogger` (middleware.ts lines
33-39): resolve the request id and attach it to the response via
`res.setHeader('x-request-id', requestId)`. -/
def requestLoggerSetId (inbound : Option String) (k : Nat) (r : ExpressRes) :
    ExpressRes :=
  r.setHeader ("x-request-id") (resolveRequestId inbound k)

lemma getHeader_setHeader (r : ExpressRes) (n v : String) :
    (r.setHeader n v).getHeader n = some v := by
  unfold ExpressRes.setHeader ExpressRes.getHeader
  simp only [List.filter_append, List.filter_filter]
  have h1 : ∀ l : List (String × String),
      l.filter (fun p =>
        (jsToLowerCase p.1 == jsToLowerCase n) &&
          !(jsToLowerCase p.1 == jsToLowerCase n)) = [] := by
    intro l
    apply List.filter_eq_nil_iff.mpr
    intro p _
    cases h : jsToLowerCase p.1 == jsToLowerCase n <;> simp [h]
  rw [h1]
  simp

/-- C3 (counterexample) -- the claim fails in two ways.  First, a request
that carries the inbound header `x-request-id` with the empty string as its
value does not get that inbound value echoed: the JS `||` treats `''` as
falsy, so a generated id is attached instead.  Second, a request without
the header can receive an *empty* generated id: when `Math.random()` draws
exactly 0, `(0).toString(36).substring(2)` is the empty string. -/
theorem requestId_counterexample :
    ((requestLoggerSetId (some ("")) 1 freshRes).getHeader ("x-request-id") ≠
        some ("")) ∧
    (requestLoggerSetId (some ("")) 1 freshRes).getHeader ("x-request-id") =
        some (generatedRequestId 1) ∧
    resolveRequestId none 0 = "" ∧
    generatedRequestId 0 = "" := by
  refine ⟨?_, ?_, by decide, by decide⟩
  · rw [requestLoggerSetId, getHeader_setHeader]
    decide
  · rw [requestLoggerSetId, getHeader_setHeader]
    decide

/-- C3 (amended) -- if the inbound `x-request-id` value is present and
non-empty, the response header `x-request-id` is exactly that value;
if the header is absent (or present but empty, which JS `||` treats as
absent), the response header is the generated base-36 string, which is
non-empty whenever the random draw is nonzero. -/
theorem requestId_resolution (inbound : Option String) (k : Nat)
    (r : ExpressRes) :
    (∀ s, inbound = some s → s ≠ "" →
      (requestLoggerSetId inbound k r).getHeader ("x-request-id") = some s) ∧
    ((inbound = none ∨ inbound = some "") →
      (requestLoggerSetId inbound k r).getHeader ("x-request-id") =
        some (generatedRequestId k)) ∧
    (k ≠ 0 → generatedRequestId k ≠ "") := by
  refine ⟨?_, ?_, ?_⟩
  · intro s hin hne
    rw [requestLoggerSetId, getHeader_setHeader, hin]
    simp [resolveRequestId, hne]
  · intro hin
    rw [requestLoggerSetId, getHeader_setHeader]
    rcases hin with h | h <;> rw [h] <;> simp [resolveRequestId]
  · intro hk
    cases k with
    | zero => exact absurd rfl hk
    | succ m =>
      have hstr : jsRandomToString36 (m + 1) =
          String.mk ('0' :: '.' :: base36FracDigits 64 (m + 1)) := by
        rw [jsRandomToString36, if_neg (Nat.succ_ne_zero m)]
      have hdig : base36FracDigits 64 (m + 1) =
          base36DigitChar ((m + 1) * 36 / 2 ^ 53) ::
            base36FracDigits 63 ((m + 1) * 36 % 2 ^ 53) := rfl
      rw [generatedRequestId, hstr, jsSubstring2]
      intro hempty
      rw [String.ext_iff] at hempty
      simp only [hdig] at hempty
      simp at hempty

/-- Witness for `requestId_resolution`: the inbound id `abc123` is echoed,
and the generated id for draw numerator 1 is non-empty. -/
theorem requestId_resolution_witness :
    ((requestLoggerSetId (some ("abc123")) 1 freshRes).getHeader
        ("x-request-id") = some ("abc123")) ∧
    generatedRequestId 1 ≠ "" := by
  refine ⟨?_, ?_⟩
  · exact (requestId_resolution (some ("abc123")) 1 freshRes).1 ("abc123") rfl
      (by decide)
  · exact (requestId_resolution (some ("abc123")) 1 freshRes).2.2 (by decide)

/-! ### The response-completion hook installed by `requestLogger` -/

/-- Pino log severities used by the middleware. -/
inductive LogLevel where
  | debug
  | info
  | warn
  | error
deriving DecidableEq, Repr

/-- One emitted log event (the fields of `logData` plus the severity and
message, middleware.ts lines 62-72). -/
structure LogEntry where
  level : LogLevel
  type : String
  requestId : String
  status : Nat
  responseTime : Nat
  message : String
deriving DecidableEq, Repr

/-- The message template on line 72:
`Response sent: ${res.statusCode} (${responseTime}ms)`. -/
def responseMessage (status responseTime : Nat) : String :=
  "Response sent: " ++ toString status ++
    (" (" ++ toString responseTime ++ "ms)")

/-- Severity selection in the `res.end` override (lines 74-80):
`if (res.statusCode >= 500) error; else if (>= 400) warn; else info`. -/
def responseLogLevel (status : Nat) : LogLevel :=
  if status ≥ 500 then .error
  else if status ≥ 400 then .warn
  else .info

/-- One invocation of the overridden `res.end` (middleware.ts lines
59-83): compute the elapsed time, emit one terminal log entry at the
selected severity, then delegate to the captured original `end` (modelled
as finishing the response and counting the call).  The override installs
no guard against repeated invocation. -/
def wrappedEnd (startTime now : Nat) (requestId : String)
    (st : ExpressRes × List LogEntry) : ExpressRes × List LogEntry :=
  let responseTime := now - startTime
  let entry : LogEntry :=
    { level := responseLogLevel st.1.statusCode
      type := "response"
      requestId := requestId
      status := st.1.statusCode
      responseTime := responseTime
      message := responseMessage st.1.statusCode responseTime }
  ({ st.1 with ended := true, endCount := st.1.endCount + 1 },
   st.2 ++ [entry])

/-- Number of terminal (`type = "response"`) log events in a log. -/
def terminalCount (log : List LogEntry) : Nat :=
  (log.filter (fun e => e.type == "response")).length

/-- Iterate the overridden `end` `n` times (the `now` timestamps of the
invocations may differ; they do not affect how many events are logged). -/
def invokeEndTimes (startTime : Nat) (requestId : String) :
    Nat → ExpressRes × List LogEntry → ExpressRes × List LogEntry
  | 0, st => st
  | n + 1, st =>
      invokeEndTimes startTime requestId n
        (wrappedEnd startTime (startTime + n) requestId st)

lemma terminalCount_append (l₁ l₂ : List LogEntry) :
    terminalCount (l₁ ++ l₂) = terminalCount l₁ + terminalCount l₂ := by
  simp [terminalCount, List.filter_append]

lemma terminalCount_wrappedEnd (startTime now : Nat) (requestId : String)
    (st : ExpressRes × List LogEntry) :
    terminalCount (wrappedEnd startTime now requestId st).2 =
      terminalCount st.2 + 1 := by
  rw [wrappedEnd]
  rw [terminalCount_append]
  rfl

/-- C1 (counterexample) -- the hook does not fire exactly once when the
write path runs twice: invoking the overridden `res.end` twice on one
request emits two terminal log events, because the override logs
unconditionally on every call before delegating. -/
theorem doubleEnd_counterexample :
    terminalCount
        (wrappedEnd 0 7 ("id") (wrappedEnd 0 5 ("id") (freshRes, []))).2 = 2 ∧
    ¬ (2 = 1) := by
  constructor
  · rw [terminalCount_wrappedEnd, terminalCount_wrappedEnd]
    rfl
  · decide

/-- C1 (amended) -- the hook emits exactly one terminal log event per
invocation of the response write path: starting from a request with no
terminal events, `n` invocations of the overridden `res.end` yield exactly
`n` terminal log events (so a request whose response is finalized by a
single `res.end` call yields exactly one), and each invocation delegates
to the original `end`. -/
theorem terminal_events_per_end (startTime : Nat) (requestId : String)
    (n : Nat) (r : ExpressRes) :
    terminalCount (invokeEndTimes startTime requestId n (r, [])).2 = n ∧
    (invokeEndTimes startTime requestId n (r, [])).1.endCount =
      r.endCount + n := by
  have key : ∀ m st, terminalCount (invokeEndTimes startTime requestId m st).2 =
      terminalCount st.2 + m ∧
      (invokeEndTimes startTime requestId m st).1.endCount =
        st.1.endCount + m := by
    intro m
    induction m with
    | zero => intro st; exact ⟨rfl, rfl⟩
    | succ p ih =>
      intro st
      rw [invokeEndTimes]
      refine ⟨?_, ?_⟩
      · rw [(ih _).1, terminalCount_wrappedEnd]
        omega
      · rw [(ih _).2]
        show st.1.endCount + 1 + p = st.1.endCount + (p + 1)
        omega
  have h := key n (r, [])
  refine ⟨?_, ?_⟩
  · rw [h.1]; simp [terminalCount]
  · exact h.2

/-- C4 -- the terminal log event produced at completion has severity
`error` when the final status is ≥ 500, `warn` when it lies in
[400, 500), and `info` otherwise; its message contains the numeric status
code and the elapsed milliseconds. -/
theorem terminal_severity_and_message (startTime now : Nat)
    (requestId : String) (st : ExpressRes × List LogEntry) :
    ∃ e : LogEntry,
      (wrappedEnd startTime now requestId st).2 = st.2 ++ [e] ∧
      e.status = st.1.statusCode ∧
      e.level = (if 500 ≤ st.1.statusCode then LogLevel.error
                 else if 400 ≤ st.1.statusCode ∧ st.1.statusCode < 500 then
                   LogLevel.warn
                 else LogLevel.info) ∧
      (∃ a b, e.message = a ++ toString e.status ++ b) ∧
      (∃ c d, e.message = c ++ toString (now - startTime) ++ d) := by
  refine ⟨_, rfl, rfl, ?_, ?_, ?_⟩
  · show responseLogLevel st.1.statusCode = _
    rw [responseLogLevel]
    split_ifs <;> first | rfl | (exfalso; omega)
  · exact ⟨"Response sent: ",
      " (" ++ toString (now - startTime) ++ "ms)", rfl⟩
  · refine ⟨"Response sent: " ++ toString st.1.statusCode ++ " (", "ms)", ?_⟩
    show responseMessage st.1.statusCode (now - startTime) = _
    simp [responseMessage, String.append_assoc]

/-! ### The Hono→Express adapter (`honoAdapter`) -/

/-- The response-mutation operations the shim context `c` exposes to the
evaluator (middleware.ts lines 115-134):
`status` is `c.res.status(code)` which calls `res.status(code)`;
`header` is `c.header(name, value)` which calls `res.setHeader(name,
value)`; `body` is `c.res.body(body)` which only returns `c`;
`bufferHeader` is a write into the shim's own `c.res.headers` object
(the fresh `new Headers()`), which is never forwarded to `res`. -/
inductive ShimOp where
  | status (code : Nat)
  | header (name value : String)
  | body (b : String)
  | bufferHeader (name value : String)
deriving DecidableEq, Repr

/-- The shim's private state: the `c.res.headers` object. -/
structure ShimState where
  resHeaders : List (String × String)
deriving DecidableEq, Repr

/-- Effect of one shim operation on the real response and the shim state,
read off the shim's method bodies (middleware.ts lines 122-133). -/
def applyShimOp (st : ExpressRes × ShimState) : ShimOp → ExpressRes × ShimState
  | .status c => ({ st.1 with statusCode := c }, st.2)
  | .header n v => (st.1.setHeader n v, st.2)
  | .body _ => st
  | .bufferHeader n v => (st.1, { resHeaders := st.2.resHeaders ++ [(n, v)] })

/-- Run the sequence of shim operations the evaluator performs. -/
def runShimOps (ops : List ShimOp) (st : ExpressRes × ShimState) :
    ExpressRes × ShimState :=
  ops.foldl applyShimOp st

/-- Observable behavior of one run of the wrapped middleware (the CORS
evaluator): the shim operations it performs, then either a normal return
(`Except.ok`, carrying `some` value when the result is defined and `none`
for `undefined`) or a thrown exception (`Except.error`). -/
structure EvalBehavior (ε ρ : Type) where
  ops : List ShimOp
  outcome : Except ε (Option ρ)

/-- How the adapter hands control onward: `clean` is `next()`,
`withError e` is `next(error)`. -/
inductive NextCall (ε : Type) where
  | clean
  | withError (e : ε)
deriving DecidableEq, Repr

/-- Result of one run of the Express middleware built by `honoAdapter`. -/
structure AdapterOutcome (ε : Type) where
  res : ExpressRes
  shim : ShimState
  next : Option (NextCall ε)

/-- Embedding of `honoAdapter` (middleware.ts lines 113-147): build a
fresh shim, run the evaluator (its shim operations, then its outcome);
on a throw call `next(error)`; on a normal return, if the result is
defined (`result !== undefined`) and the method is `OPTIONS`, respond
`res.status(204).end()` and return without calling `next`; otherwise call
`next()`. -/
def honoAdapter {ε ρ : Type} (method : String) (ev : EvalBehavior ε ρ)
    (r0 : ExpressRes) : AdapterOutcome ε :=
  let st := runShimOps ev.ops (r0, { resHeaders := [] })
  match ev.outcome with
  | .error e => { res := st.1, shim := st.2, next := some (.withError e) }
  | .ok result =>
      if result.isSome && (method == "OPTIONS") then
        { res := { st.1 with
                     statusCode := 204
                     ended := true
                     endCount := st.1.endCount + 1 }
          shim := st.2
          next := none }
      else
        { res := st.1, shim := st.2, next := some .clean }

lemma runShimOps_body (ops : List ShimOp) :
    ∀ st : ExpressRes × ShimState, (runShimOps ops st).1.body = st.1.body := by
  induction ops with
  | nil => intro st; rfl
  | cons op t ih =>
    intro st
    have hstep : (applyShimOp st op).1.body = st.1.body := by
      cases op <;> rfl
    rw [runShimOps, List.foldl_cons]
    exact (ih (applyShimOp st op)).trans hstep

lemma runShimOps_ended (ops : List ShimOp) :
    ∀ st : ExpressRes × ShimState, (runShimOps ops st).1.ended = st.1.ended := by
  induction ops with
  | nil => intro st; rfl
  | cons op t ih =>
    intro st
    have hstep : (applyShimOp st op).1.ended = st.1.ended := by
      cases op <;> rfl
    rw [runShimOps, List.foldl_cons]
    exact (ih (applyShimOp st op)).trans hstep

/-- C5 -- preflight handling: when the evaluator returns a defined result
and the method is `OPTIONS`, the adapter responds with status 204, ends
the response with no body, and never calls `next`; for any other method,
when the evaluator returns normally the adapter calls `next()` cleanly,
passing control downstream. -/
theorem preflight_spec {ε ρ : Type} (method : String) (ev : EvalBehavior ε ρ)
    (r0 : ExpressRes) :
    (∀ v : ρ, ev.outcome = .ok (some v) → method = "OPTIONS" →
      r0.body = none →
      (honoAdapter method ev r0).res.statusCode = 204 ∧
      (honoAdapter method ev r0).res.ended = true ∧
      (honoAdapter method ev r0).res.body = none ∧
      (honoAdapter method ev r0).next = none) ∧
    (method ≠ "OPTIONS" → ∀ result, ev.outcome = .ok result →
      (honoAdapter method ev r0).next = some .clean) := by
  constructor
  · intro v hok hm hbody
    subst hm
    have hb := runShimOps_body ev.ops (r0, { resHeaders := [] })
    simp only [honoAdapter, hok, Option.isSome_some, Bool.true_and,
      beq_self_eq_true, if_true]
    exact ⟨trivial, trivial, hb.trans hbody, trivial⟩
  · intro hm result hok
    simp only [honoAdapter, hok]
    have hcond : (result.isSome && (method == "OPTIONS")) = false := by
      have h2 : (method == "OPTIONS") = false := by
        cases h : method == "OPTIONS" with
        | true => exact absurd (eq_of_beq h) hm
        | false => rfl
      rw [h2, Bool.and_false]
    rw [if_neg (by rw [hcond]; exact Bool.false_ne_true)]

/-- Witness for `preflight_spec`: a concrete OPTIONS run with a defined
result responds 204-no-body without `next`, and a concrete GET run calls
`next()`. -/
theorem preflight_spec_witness :
    ((honoAdapter ("OPTIONS")
        ({ ops := [], outcome := .ok (some 0) } : EvalBehavior Nat Nat)
        freshRes).res.statusCode = 204 ∧
     (honoAdapter ("OPTIONS")
        ({ ops := [], outcome := .ok (some 0) } : EvalBehavior Nat Nat)
        freshRes).res.ended = true ∧
     (honoAdapter ("OPTIONS")
        ({ ops := [], outcome := .ok (some 0) } : EvalBehavior Nat Nat)
        freshRes).res.body = none ∧
     (honoAdapter ("OPTIONS")
        ({ ops := [], outcome := .ok (some 0) } : EvalBehavior Nat Nat)
        freshRes).next = none) ∧
    (honoAdapter ("GET")
        ({ ops := [], outcome := .ok (some 0) } : EvalBehavior Nat Nat)
        freshRes).next = some .clean := by
  constructor
  · exact (preflight_spec ("OPTIONS")
      ({ ops := [], outcome := .ok (some 0) } : EvalBehavior Nat Nat)
      freshRes).1 0 rfl rfl rfl
  · exact (preflight_spec ("GET")
      ({ ops := [], outcome := .ok (some 0) } : EvalBehavior Nat Nat)
      freshRes).2 (by decide) (some 0) rfl

/-- C9 -- when the evaluator throws, the adapter forwards that exact
exception to the error-handling stage (`next(error)`) and writes nothing
itself on that path: the response is neither ended nor given a body by the
adapter. -/
theorem evaluator_throw_spec {ε ρ : Type} (method : String)
    (ev : EvalBehavior ε ρ) (e : ε) (r0 : ExpressRes)
    (hthrow : ev.outcome = .error e) :
    (honoAdapter method ev r0).next = some (.withError e) ∧
    (honoAdapter method ev r0).res.ended = r0.ended ∧
    (honoAdapter method ev r0).res.body = r0.body := by
  rw [honoAdapter, hthrow]
  exact ⟨rfl, runShimOps_ended ev.ops (r0, { resHeaders := [] }),
    runShimOps_body ev.ops (r0, { resHeaders := [] })⟩

/-- Witness for `evaluator_throw_spec` at a concrete throwing evaluator. -/
theorem evaluator_throw_spec_witness :
    (honoAdapter ("GET")
        ({ ops := [ShimOp.header ("vary") ("origin")], outcome := .error 42 } :
          EvalBehavior Nat Nat)
        freshRes).next = some (.withError 42) ∧
    (honoAdapter ("GET")
        ({ ops := [ShimOp.header ("vary") ("origin")], outcome := .error 42 } :
          EvalBehavior Nat Nat)
        freshRes).res.ended = freshRes.ended ∧
    (honoAdapter ("GET")
        ({ ops := [ShimOp.header ("vary") ("origin")], outcome := .error 42 } :
          EvalBehavior Nat Nat)
        freshRes).res.body = freshRes.body :=
  evaluator_throw_spec ("GET")
    ({ ops := [ShimOp.header ("vary") ("origin")], outcome := .error 42 } :
      EvalBehavior Nat Nat) 42 freshRes rfl

/-- Whether a shim operation forwards onto the real response: only the
`status` and `header` setters do. -/
def mutatesRealRes : ShimOp → Bool
  | .status _ => true
  | .header _ _ => true
  | .body _ => false
  | .bufferHeader _ _ => false

lemma runShimOps_cons (op : ShimOp) (ops : List ShimOp)
    (st : ExpressRes × ShimState) :
    runShimOps (op :: ops) st = runShimOps ops (applyShimOp st op) := rfl

lemma runShimOps_fst_indep (ops : List ShimOp) :
    ∀ (r : ExpressRes) (s s' : ShimState),
      (runShimOps ops (r, s)).1 = (runShimOps ops (r, s')).1 := by
  induction ops with
  | nil => intro r s s'; rfl
  | cons op t ih =>
    intro r s s'
    rw [runShimOps, List.foldl_cons, runShimOps, List.foldl_cons]
    cases op with
    | status c => exact ih _ _ _
    | header n v => exact ih _ _ _
    | body b => exact ih _ _ _
    | bufferHeader n v => exact ih _ _ _

/-- C10 -- frame property of the shim: the real in-flight response after
any sequence of shim operations is exactly what the `status` and `header`
setters alone produce — the shim's `body` operation is a complete no-op
(returning the shim unchanged), and writes into the shim's internal
`res.headers` object are never forwarded to the real response. -/
theorem shim_frame_spec (ops : List ShimOp) :
    (∀ st : ExpressRes × ShimState,
      (runShimOps (ops.filter mutatesRealRes) st).1 = (runShimOps ops st).1) ∧
    (∀ (b : String) (st : ExpressRes × ShimState),
      applyShimOp st (.body b) = st) := by
  constructor
  · induction ops with
    | nil => intro st; rfl
    | cons op t ih =>
      intro st
      obtain ⟨r, s⟩ := st
      cases op with
      | status c =>
        show (runShimOps (ShimOp.status c :: t.filter mutatesRealRes) (r, s)).1 =
          (runShimOps (ShimOp.status c :: t) (r, s)).1
        rw [runShimOps_cons, runShimOps_cons]
        exact ih _
      | header n v =>
        show (runShimOps (ShimOp.header n v :: t.filter mutatesRealRes)
            (r, s)).1 = (runShimOps (ShimOp.header n v :: t) (r, s)).1
        rw [runShimOps_cons, runShimOps_cons]
        exact ih _
      | body b =>
        show (runShimOps (t.filter mutatesRealRes) (r, s)).1 =
          (runShimOps (ShimOp.body b :: t) (r, s)).1
        rw [runShimOps_cons]
        exact ih (r, s)
      | bufferHeader n v =>
        show (runShimOps (t.filter mutatesRealRes) (r, s)).1 =
          (runShimOps (ShimOp.bufferHeader n v :: t) (r, s)).1
        rw [runShimOps_cons]
        exact (ih (r, s)).trans
          (runShimOps_fst_indep t r s { resHeaders := s.resHeaders ++ [(n, v)] })
  · intro b st; rfl

/-! ### The global error handler (`errorHandler`) -/

/-- The fields of a failure object (`err : any`) that `errorHandler`
reads.  Each is optional; JS truthiness additionally treats a present `0`
(for numbers) or `''` (for strings) as falsy in the `||` chains. -/
structure JsError where
  status : Option Nat
  statusCode : Option Nat
  message : Option String
  name : Option String
  stack : Option String
deriving DecidableEq, Repr

/-- JS truthiness for an optional number: `0` and absence are falsy. -/
def truthyNat : Option Nat → Option Nat
  | some 0 => none
  | some (n + 1) => some (n + 1)
  | none => none

/-- JS truthiness for an optional string: `''` and absence are falsy. -/
def truthyStr : Option String → Option String
  | some s => if s = "" then none else some s
  | none => none

/-- `err.status || err.statusCode || 500` (middleware.ts line 199). -/
def resolveStatusCode (e : JsError) : Nat :=
  match truthyNat e.status with
  | some n => n
  | none =>
      match truthyNat e.statusCode with
      | some n => n
      | none => 500

/-- `err.message || 'Internal Server Error'` (middleware.ts line 200). -/
def resolveMessage (e : JsError) : String :=
  match truthyStr e.message with
  | some s => s
  | none => "Internal Server Error"

/-- The `details` object built in non-production mode
(`{ name: err.name, stack: err.stack }`, middleware.ts line 216). -/
structure ErrorDetails where
  name : Option String
  stack : Option String
deriving DecidableEq, Repr

/-- The JSON error envelope (`ErrorResponse`, middleware.ts lines
179-188 and 219-228). -/
structure ErrorEnvelope where
  code : Nat
  message : String
  details : Option ErrorDetails
  success : Bool
  timestamp : String
  path : String
deriving DecidableEq, Repr

/-- Embedding of `errorHandler` (middleware.ts lines 193-231): resolve the
status code and message with the `||` chains, build `details` only outside
production (`if (!SERVER.IS_PRODUCTION)`), spread `details` into the
envelope only when set (a set `details` is an object, hence truthy), and
respond with `res.status(statusCode).json(errorResponse)`.  Returns the
response status together with the envelope. -/
def errorHandler (isProduction : Bool) (e : JsError)
    (reqPath timestamp : String) : Nat × ErrorEnvelope :=
  let statusCode := resolveStatusCode e
  let errorMessage := resolveMessage e
  let errorDetails : Option ErrorDetails :=
    if !isProduction then some { name := e.name, stack := e.stack } else none
  (statusCode,
   { code := statusCode
     message := errorMessage
     details := errorDetails
     success := false
     timestamp := timestamp
     path := reqPath })

/-- A failure object carrying `status: 0` and `message: ''`: both fields
are present, but both are falsy in JS. -/
def zeroStatusErr : JsError :=
  { status := some 0, statusCode := none, message := some (""), name := none,
    stack := none }

/-- C6 (counterexample) -- the claim fails for a failure whose status hint
is present but falsy: for `zeroStatusErr` (which carries `status: 0` and
`message: ''`), the response status is 500, not the present hint 0, and
the envelope message is the generic default, not the present message. -/
theorem errorHandler_counterexample :
    zeroStatusErr.status = some 0 ∧
    zeroStatusErr.message = some ("") ∧
    (errorHandler true zeroStatusErr ("/api") ("ts")).1 = 500 ∧
    ¬ ((errorHandler true zeroStatusErr ("/api") ("ts")).1 = 0) ∧
    (errorHandler true zeroStatusErr ("/api") ("ts")).2.message =
      "Internal Server Error" ∧
    ¬ ((errorHandler true zeroStatusErr ("/api") ("ts")).2.message = "") := by
  refine ⟨rfl, rfl, rfl, by decide, rfl, by decide⟩

/-- C6 (amended) -- the response status equals the failure's first truthy
(present and nonzero) status hint, `status` then `statusCode`, and 500
when neither is truthy; the envelope message equals the failure's message
when truthy (present and non-empty) and the generic default otherwise;
and the envelope has `code` equal to the resolved status, `success =
false`, and the request's timestamp and path. -/
theorem errorHandler_spec (prod : Bool) (e : JsError)
    (reqPath timestamp : String) :
    (∀ n, e.status = some n → n ≠ 0 →
      (errorHandler prod e reqPath timestamp).1 = n) ∧
    ((e.status = none ∨ e.status = some 0) →
      ∀ n, e.statusCode = some n → n ≠ 0 →
        (errorHandler prod e reqPath timestamp).1 = n) ∧
    ((e.status = none ∨ e.status = some 0) →
      (e.statusCode = none ∨ e.statusCode = some 0) →
        (errorHandler prod e reqPath timestamp).1 = 500) ∧
    (∀ s, e.message = some s → s ≠ "" →
      (errorHandler prod e reqPath timestamp).2.message = s) ∧
    ((e.message = none ∨ e.message = some "") →
      (errorHandler prod e reqPath timestamp).2.message =
        "Internal Server Error") ∧
    (errorHandler prod e reqPath timestamp).2.code =
      (errorHandler prod e reqPath timestamp).1 ∧
    (errorHandler prod e reqPath timestamp).2.success = false ∧
    (errorHandler prod e reqPath timestamp).2.timestamp = timestamp ∧
    (errorHandler prod e reqPath timestamp).2.path = reqPath := by
  refine ⟨?_, ?_, ?_, ?_, ?_, rfl, rfl, rfl, rfl⟩
  · intro n hst hne
    show resolveStatusCode e = n
    rw [resolveStatusCode, hst]
    cases n with
    | zero => exact absurd rfl hne
    | succ m => rfl
  · intro hst n hsc hne
    show resolveStatusCode e = n
    rw [resolveStatusCode, hsc]
    have h0 : truthyNat e.status = none := by
      rcases hst with h | h <;> rw [h] <;> rfl
    rw [h0]
    cases n with
    | zero => exact absurd rfl hne
    | succ m => rfl
  · intro hst hsc
    show resolveStatusCode e = 500
    rw [resolveStatusCode]
    have h0 : truthyNat e.status = none := by
      rcases hst with h | h <;> rw [h] <;> rfl
    have h1 : truthyNat e.statusCode = none := by
      rcases hsc with h | h <;> rw [h] <;> rfl
    rw [h0, h1]
  · intro s hm hne
    show resolveMessage e = s
    rw [resolveMessage, hm]
    simp [truthyStr, hne]
  · intro hm
    show resolveMessage e = "Internal Server Error"
    have h0 : truthyStr e.message = none := by
      rcases hm with h | h <;> rw [h] <;> simp [truthyStr]
    rw [resolveMessage, h0]

/-- Witness for `errorHandler_spec`: a failure with `status: 404` and
`message: "Not Found"` yields response status 404 and that message. -/
theorem errorHandler_spec_witness :
    (errorHandler true
        { status := some 404, statusCode := none,
          message := some ("Not Found"), name := none, stack := none }
        ("/missing") ("ts")).1 = 404 ∧
    (errorHandler true
        { status := some 404, statusCode := none,
          message := some ("Not Found"), name := none, stack := none }
        ("/missing") ("ts")).2.message = "Not Found" := by
  constructor
  · exact (errorHandler_spec true
      { status := some 404, statusCode := none,
        message := some ("Not Found"), name := none, stack := none }
      ("/missing") ("ts")).1 404 rfl (by decide)
  · exact (errorHandler_spec true
      { status := some 404, statusCode := none,
        message := some ("Not Found"), name := none, stack := none }
      ("/missing") ("ts")).2.2.2.1 ("Not Found") rfl (by decide)

/-- C7 -- when the production flag is set, the envelope carries no
`details` field (no stack trace ever reaches the client); when it is not
set, `details` carries exactly the failure's name and raw stack trace. -/
theorem errorHandler_details_spec (e : JsError) (reqPath timestamp : String) :
    (errorHandler true e reqPath timestamp).2.details = none ∧
    (errorHandler false e reqPath timestamp).2.details =
      some { name := e.name, stack := e.stack } := by
  exact ⟨rfl, rfl⟩

end Middleware
